import Mathlib

/-!
Verification of the linebattles simulation core (`src/main.py`).

Modelling conventions:
* Python floats are modelled as exact rationals (`ℚ`); the float literals
  `math.pi` and `CollisionSpace.BUFSIZE = .2` are taken as the exact
  rationals the IEEE-754 doubles denote.  Millisecond tick counts and
  pixel rectangle coordinates are integers, as in pygame.
* `pygame.Rect` stores integer coordinates, so rectangles live over `ℤ`.
* Geometry that goes through `math.sin`/`math.cos`
  (`Ship._calc_global_ps`, `Ship.move_forward`) is abstracted as an
  explicit function parameter; everything else is computable.
* Randomness is modelled by passing the drawn values as arguments
  (a baddie carries the pre-drawn outcome of its `upgrade()` roll).
* A Python `assert` failure is modelled by `Option` (`none` = error).
-/

/-- `math.pi` — the IEEE-754 double Python uses — as an exact rational. -/
def piQ : ℚ := 884279719003555 / 281474976710656

/-- `2 * math.pi` as used by `Ship.rotate` and `Wiggler.tick`
(main.py:179-182, 348-352). -/
def twoPi : ℚ := 2 * piQ

/-- Python `int(x)` applied to a float: truncation toward zero. -/
def pyInt (q : ℚ) : ℤ := if q < 0 then ⌈q⌉ else ⌊q⌋

/-- Python 2 `xrange(a, b, step)` for a positive `step`. -/
def pyXrange (a b step : ℤ) : List ℤ :=
  (List.range ((b - a + step - 1).toNat / step.toNat)).map fun k : ℕ => a + step * (k : ℤ)

/-- A `pygame.Rect`: integer top-left corner plus width and height. -/
structure PyRect where
  x : ℤ
  y : ℤ
  w : ℤ
  h : ℤ
deriving DecidableEq, Repr

/-- `pygame.Rect.colliderect`: the two rectangles overlap (strictly). -/
def PyRect.colliderect (a b : PyRect) : Bool :=
  decide (a.x < b.x + b.w) && decide (b.x < a.x + a.w) &&
  decide (a.y < b.y + b.h) && decide (b.y < a.y + a.h)

/-- `pygame.Rect.collidepoint`: the point is inside the rectangle
(left/top edges inclusive, right/bottom exclusive). -/
def PyRect.collidepoint (r : PyRect) (p : ℤ × ℤ) : Bool :=
  decide (r.x ≤ p.1) && decide (p.1 < r.x + r.w) &&
  decide (r.y ≤ p.2) && decide (p.2 < r.y + r.h)

/-- The loop `while self.traj > 2 * math.pi: self.traj -= 2 * math.pi`
of `Ship.rotate` (main.py:179-180). -/
def normDown (t : ℚ) : ℚ :=
  if twoPi < t then normDown (t - twoPi) else t
termination_by (⌈t / twoPi⌉).toNat
decreasing_by
  have h2 : (0 : ℚ) < twoPi := by norm_num [twoPi, piQ]
  have h3 : (1 : ℚ) < t / twoPi := (one_lt_div h2).mpr (by linarith)
  have h4 : (1 : ℤ) < ⌈t / twoPi⌉ := by
    have := Int.lt_ceil.mpr (by exact_mod_cast h3 : ((1 : ℤ) : ℚ) < t / twoPi)
    exact this
  have h5 : (t - twoPi) / twoPi = t / twoPi - 1 := by field_simp
  rw [h5, Int.ceil_sub_one]
  omega

/-- The loop `while self.traj < 0: self.traj += 2 * math.pi`
of `Ship.rotate` (main.py:181-182). -/
def normUp (t : ℚ) : ℚ :=
  if t < 0 then normUp (t + twoPi) else t
termination_by (⌈-t / twoPi⌉).toNat
decreasing_by
  have h2 : (0 : ℚ) < twoPi := by norm_num [twoPi, piQ]
  have h3 : (0 : ℚ) < -t / twoPi := div_pos (by linarith) h2
  have h4 : (0 : ℤ) < ⌈-t / twoPi⌉ := by
    have := Int.lt_ceil.mpr (by exact_mod_cast h3 : ((0 : ℤ) : ℚ) < -t / twoPi)
    exact this
  have h5 : -(t + twoPi) / twoPi = -t / twoPi - 1 := by field_simp; ring
  rw [h5, Int.ceil_sub_one]
  omega

/-- Both wrap-around loops of `Ship.rotate` (and of `Wiggler.tick`), in
source order: first reduce while above `2π`, then raise while below `0`. -/
def wrapTraj (t : ℚ) : ℚ := normUp (normDown t)

/-- The state of a `Ship` relevant to movement and the bounding-box cache
(main.py:127-158).  `rect = none` models Python's `self.rect = None`
(stale cache). -/
structure ShipM where
  pos : ℚ × ℚ
  traj : ℚ
  speed : ℚ
  rect : Option PyRect
deriving DecidableEq, Repr

/-- `Positional.move` (main.py:112-124): invalidate the cached rectangle,
then translate the position. -/
def ShipM.move (s : ShipM) (dx dy : ℚ) : ShipM :=
  { s with rect := none, pos := (s.pos.1 + dx, s.pos.2 + dy) }

/-- `Ship.rotate` (main.py:176-182): invalidate the cached rectangle, add
the delta, wrap the heading. -/
def ShipM.rotate (s : ShipM) (dt : ℚ) : ShipM :=
  { s with rect := none, traj := wrapTraj (s.traj + dt) }

/-- `Ship.move_forward` (main.py:160-174).  The `assert amt >= 0 and amt <= 1`
is modelled by `Option` (`none` = `AssertionError`); `cosF`/`sinF` stand for
`math.cos`/`math.sin`. -/
def ShipM.move_forward (cosF sinF : ℚ → ℚ) (s : ShipM) (amt : ℚ) : Option ShipM :=
  if 0 ≤ amt ∧ amt ≤ 1 then
    some { s with rect := none,
                  pos := (s.pos.1 + cosF s.traj * (s.speed * amt),
                          s.pos.2 + sinF s.traj * (s.speed * amt)) }
  else none

/-- `Ship._build_rect` (main.py:191-196): recompute the bounding rectangle
only when the cache is stale, and cache the result.  `geom` abstracts
`_calc_global_ps` plus the `pygame.Rect` union; it depends only on the
position and heading (the point list and size of a ship are fixed). -/
def ShipM.build_rect (geom : ℚ × ℚ → ℚ → PyRect) (s : ShipM) : PyRect × ShipM :=
  match s.rect with
  | some r => (r, s)
  | none => (geom s.pos s.traj, { s with rect := some (geom s.pos s.traj) })

/-- The heading flip of the horizontal wall bounce in
`CollisionSpace._tick_baddie` (main.py:724): `baddie.traj = math.pi - baddie.traj`.
A plain attribute assignment: the cached rectangle is not invalidated. -/
def ShipM.bounce_h (s : ShipM) : ShipM := { s with traj := piQ - s.traj }

/-- The heading flip of the vertical wall bounce (main.py:730):
`baddie.traj = -baddie.traj`; the cached rectangle is not invalidated. -/
def ShipM.bounce_v (s : ShipM) : ShipM := { s with traj := -s.traj }

/-- The heading update of `Wiggler.tick` (main.py:346-352); `d` is the
drawn value of `random.randrange(-100,100,1) / 1000.`. -/
def wigglerTraj (t d : ℚ) : ℚ := wrapTraj (t + d)

/-- The three upgrade classes (main.py:974-1011). -/
inductive UpgradeKind
  | bulletU
  | speedU
  | shieldU
deriving DecidableEq, Repr

/-- The runtime kind of an entity of the hostile pool, as inspected with
`isinstance` in `CollisionSpace.tick`. -/
inductive HKind
  | baddie
  | hbullet
  | upgrade (u : UpgradeKind)
deriving DecidableEq, Repr

/-- An entity of the hostile pool as it sits in a bin during the collision
scans: its runtime kind, its (already built) bounding rectangle, its
integer position (what `collidepoint` sees for a bullet), its `score`
value, and the pre-drawn outcome of its `upgrade()` drop roll.  The
`score` and `drops` fields of upgrades and hostile bullets are
placeholders the scans never consult. -/
structure HEntity where
  kind : HKind
  rect : PyRect
  pos : ℤ × ℤ
  score : ℤ
  drops : List UpgradeKind
deriving DecidableEq, Repr

/-- The player state touched by the collision scan
(`Player`, main.py:219-277). -/
structure PlayerS where
  shields : ℤ
  exploding : Bool
  gunPower : ℕ
  speed : ℚ
  score : ℤ
  rect : PyRect
deriving DecidableEq, Repr

/-- `Player.hit` (main.py:270-274): with no shields left, explode;
otherwise spend one shield. -/
def PlayerS.hit (p : PlayerS) : PlayerS :=
  if p.shields ≤ 0 then { p with exploding := true }
  else { p with shields := p.shields - 1 }

/-- `BulletUpgrade.apply`, `SpeedUpgrade.apply`, `ShieldUpgrade.apply`
(main.py:975-976, 991-992, 1006-1007). -/
def UpgradeKind.apply (u : UpgradeKind) (p : PlayerS) : PlayerS :=
  match u with
  | .bulletU => { p with gunPower := p.gunPower + 1 }
  | .speedU => { p with speed := p.speed + 1 }
  | .shieldU => { p with shields := p.shields + 1 }

/-- `entity.collides(player)` as dispatched in the player scan
(main.py:773 with 206-215, 441-443, 942-945): a `Baddie` or an `Upgrade`
compares bounding rectangles; a hostile `Bullet` tests its position
against the player's rectangle. -/
def collidesPlayer (e : HEntity) (p : PlayerS) : Bool :=
  match e.kind with
  | .baddie => e.rect.colliderect p.rect
  | .upgrade _ => e.rect.colliderect p.rect
  | .hbullet => p.rect.collidepoint e.pos

/-- The inner loop of the player scan (main.py:772-784) over one bin.
The bin is iterated in reverse index order, so the argument list is the
bin reversed: a colliding baddie or hostile bullet makes the player take
a hit, is removed, and `break`s the bin scan; a colliding upgrade is
applied to the player, removed, and the scan continues; everything else
survives.  Returns the updated player and the surviving entities (still
in reversed order). -/
def playerScanBinRev (p : PlayerS) : List HEntity → PlayerS × List HEntity
  | [] => (p, [])
  | e :: rest =>
    if collidesPlayer e p then
      match e.kind with
      | .upgrade u => playerScanBinRev (u.apply p) rest
      | _ => (p.hit, rest)
    else
      let r := playerScanBinRev p rest
      (r.1, e :: r.2)

/-- One bin of the player scan, with the reverse iteration made explicit. -/
def playerScanBin (p : PlayerS) (bin : List HEntity) : PlayerS × List HEntity :=
  let r := playerScanBinRev p bin.reverse
  (r.1, r.2.reverse)

/-- The outer loop of the player scan (main.py:771-785): visit the queried
bins in order, updating the grid in place, and stop after any bin that
leaves the player exploding (`if self.player.exploding: break`). -/
def playerScanBins (grid : ℤ × ℤ → List HEntity) (p : PlayerS) :
    List (ℤ × ℤ) → PlayerS × (ℤ × ℤ → List HEntity)
  | [] => (p, grid)
  | ij :: rest =>
    let r := playerScanBin p (grid ij)
    let grid2 := Function.update grid ij r.2
    if r.1.exploding then (r.1, grid2)
    else playerScanBins grid2 r.1 rest

/-- The candidate test of the bullet scan (main.py:799-800):
`not isinstance(..., Upgrade) and bins[i][j][b2].collides(bullet)`.
Upgrades are skipped outright; a hostile `Bullet` answers `collides`
with `False` for a non-`Ship` argument (main.py:441-443); a `Baddie`
collides iff its rectangle contains the bullet's position
(main.py:206-212). -/
def bulletHits (e : HEntity) (bpos : ℤ × ℤ) : Bool :=
  match e.kind with
  | .upgrade _ => false
  | .hbullet => false
  | .baddie => e.rect.collidepoint bpos

/-- The inner loop of the bullet scan over one (reversed) bin
(main.py:797-808): return the first qualifying target, if any, and the
surviving entities (in reversed order). -/
def bulletScanBinRev (bpos : ℤ × ℤ) : List HEntity → Option HEntity × List HEntity
  | [] => (none, [])
  | e :: rest =>
    if bulletHits e bpos then (some e, rest)
    else
      let r := bulletScanBinRev bpos rest
      (r.1, e :: r.2)

/-- One bin of the bullet scan, with the reverse iteration made explicit. -/
def bulletScanBin (bpos : ℤ × ℤ) (bin : List HEntity) : Option HEntity × List HEntity :=
  let r := bulletScanBinRev bpos bin.reverse
  (r.1, r.2.reverse)

/-- The outer loop of the bullet scan (main.py:796-809): visit the
bullet's bins in order and stop at the first hit (`if removed: break`). -/
def bulletScanBins (bpos : ℤ × ℤ) (grid : ℤ × ℤ → List HEntity) :
    List (ℤ × ℤ) → Option HEntity × (ℤ × ℤ → List HEntity)
  | [] => (none, grid)
  | ij :: rest =>
    let r := bulletScanBin bpos (grid ij)
    let grid2 := Function.update grid ij r.2
    match r.1 with
    | some e => (some e, grid2)
    | none => bulletScanBins bpos grid2 rest

/-- A dropped upgrade as constructed by a dying baddie's `upgrade()`
(main.py:314-326): an `Upgrade` at the baddie's position whose rectangle
is a 20x20 box centred there (main.py:947-950). -/
def mkDrop (pos : ℤ × ℤ) (u : UpgradeKind) : HEntity :=
  { kind := .upgrade u, rect := ⟨pos.1 - 10, pos.2 - 10, 20, 20⟩, pos := pos,
    score := 0, drops := [] }

/-- Outcome of resolving one player bullet. -/
structure BulletOutcome where
  target : Option HEntity
  grid : ℤ × ℤ → List HEntity
  pool : List HEntity
  score : ℤ
  bulletRemoved : Bool

/-- Resolution of one surviving player bullet against the grid
(main.py:795-809): scan its bins for the first qualifying target; on a
hit, append the target's drop roll to the hostile pool (only baddies are
asked for drops), add the target's score to the player's score, and
remove both the bullet and the target. -/
def bulletResolve (bpos : ℤ × ℤ) (grid : ℤ × ℤ → List HEntity)
    (idxs : List (ℤ × ℤ)) (pool : List HEntity) (score : ℤ) : BulletOutcome :=
  let r := bulletScanBins bpos grid idxs
  match r.1 with
  | none => ⟨none, r.2, pool, score, false⟩
  | some e =>
    ⟨some e, r.2,
     (match e.kind with
      | .baddie => pool ++ e.drops.map (mkDrop e.pos)
      | _ => pool),
     score + e.score, true⟩

/-- `Gun.SIDES` (main.py:466). -/
inductive Side
  | good
  | bad
deriving DecidableEq, Repr

/-- A `Gun` (main.py:465-472): the integer `power` (named `num_bullets` at
construction; every code path keeps it non-negative) and the side tag. -/
structure GunM where
  power : ℕ
  side : Side
deriving DecidableEq, Repr

/-- A `Bullet` as produced by `Gun.fire` (main.py:431-439): position,
heading and side (speed 8, trail length 10 and the colour are constants). -/
structure BulletM where
  pos : ℚ × ℚ
  traj : ℚ
  side : Side
deriving DecidableEq, Repr

/-- `Gun.fire` (main.py:474-478): one bullet per
`i in xrange(-self.power, self.power + 1, 2)`, each at heading
`traj + i / 50.` and carrying the gun's side. -/
def GunM.fire (g : GunM) (pos : ℚ × ℚ) (traj : ℚ) : List BulletM :=
  (pyXrange (-(g.power : ℤ)) ((g.power : ℤ) + 1) 2).map
    fun i : ℤ => { pos := pos, traj := traj + (i : ℚ) / 50, side := g.side }

/-- The firing state of `Player` (main.py:232-246, 267-268). -/
structure PlayerFireS where
  last_fire_time : ℤ
  fire_delay : ℤ
  gun : GunM
  pos : ℚ × ℚ
deriving DecidableEq, Repr

/-- `Player.okay_to_fire` (main.py:241-246); `ticks` is the
`pygame.time.get_ticks()` value at the call.  On success the stored
timestamp is advanced to `ticks`; on refusal the state is untouched. -/
def PlayerFireS.okay_to_fire (p : PlayerFireS) (ticks : ℤ) : Bool × PlayerFireS :=
  if p.last_fire_time + p.fire_delay ≤ ticks then
    (true, { p with last_fire_time := ticks })
  else (false, p)

/-- `Player.fire` (main.py:267-268):
`self.okay_to_fire() and self.gun.fire(self.pos, traj) or ()`.
Python truthiness: the bullet list is returned when firing is allowed and
the list is non-empty, otherwise the empty tuple. -/
def PlayerFireS.fire (p : PlayerFireS) (ticks : ℤ) (traj : ℚ) :
    List BulletM × PlayerFireS :=
  let r := p.okay_to_fire ticks
  if r.1 then
    let bs := r.2.gun.fire r.2.pos traj
    (if bs.isEmpty then [] else bs, r.2)
  else ([], r.2)

/-- The four baddie classes (main.py:329-423). -/
inductive BaddieType
  | wiggler
  | fastWiggler
  | homer
  | shooter
deriving DecidableEq, Repr

/-- One wave entry of a level progression (main.py:525-530):
`(delay, spawn point index, baddie type, count)`.  Delays are float
literals in the source, hence `ℚ`. -/
structure LevelEntry where
  delay : ℚ
  spawnIdx : ℕ
  btype : BaddieType
  count : ℕ
deriving DecidableEq, Repr

/-- `Level` timing state (main.py:519-587).  `paused` holds Python's
`False`-or-pause-timestamp: `False` is modelled as `0` (Python `False`
is falsy and equals `0` in arithmetic, which is exactly how
`Level.resume` uses it).  The model assumes a started level
(`start_time` set); calling `tick` before `start` raises in Python. -/
structure LevelM where
  progression : List LevelEntry
  prog_i : ℤ
  start_time : ℤ
  paused : ℤ
deriving DecidableEq, Repr

/-- `SpawnPoint.queue_spawn` repeated `count` times
(main.py:504-505, 571-573): append `count` copies of the baddie type to
the addressed spawn point's queue. -/
def queueSpawnN (spawns : List (List BaddieType)) (e : LevelEntry) :
    List (List BaddieType) :=
  spawns.set e.spawnIdx (spawns.getD e.spawnIdx [] ++ List.replicate e.count e.btype)

/-- The `while` loop of `Level.tick` (main.py:570-574) over the pending
entries: as long as the current entry's delay is at most the elapsed time
since start, enqueue its order and advance.  (When the entries run out,
`_p()` yields the `9e9999` sentinel, whose comparison is always false —
here simply the `[]` case.)  Returns the number of entries consumed and
the updated spawn queues. -/
def levelTickLoop (elapsed : ℚ) : List LevelEntry → List (List BaddieType) →
    ℕ × List (List BaddieType)
  | [], sp => (0, sp)
  | e :: rest, sp =>
    if e.delay ≤ elapsed then
      let r := levelTickLoop elapsed rest (queueSpawnN sp e)
      (r.1 + 1, r.2)
    else (0, sp)

/-- `Level.start` (main.py:555-558). -/
def LevelM.start (lv : LevelM) (now : ℤ) : LevelM :=
  { lv with paused := 0, prog_i := 0, start_time := now }

/-- `Level.tick` (main.py:566-574); `now` is `pygame.time.get_ticks()`
(one value per call) and `spawns` are the queues of the level's spawn
points. -/
def LevelM.tick (lv : LevelM) (spawns : List (List BaddieType)) (now : ℤ) :
    LevelM × List (List BaddieType) :=
  if lv.paused ≠ 0 then (lv, spawns)
  else if lv.prog_i < lv.progression.length then
    let r := levelTickLoop ((now - lv.start_time : ℤ) : ℚ)
      (lv.progression.drop lv.prog_i.toNat) spawns
    ({ lv with prog_i := lv.prog_i + r.1 }, r.2)
  else (lv, spawns)

/-- `Level.done` (main.py:586-587). -/
def LevelM.done (lv : LevelM) : Bool := lv.prog_i ≥ lv.progression.length

/-- `CollisionSpace` dimensions (main.py:684-709): `BINSIZE = 50`;
`set_screen_size` computes `cols = width / BINSIZE`,
`rows = height / BINSIZE` with Python 2 integer division. -/
structure SpaceM where
  width : ℕ
  height : ℕ
deriving DecidableEq, Repr

def SpaceM.cols (s : SpaceM) : ℕ := s.width / 50

def SpaceM.rows (s : SpaceM) : ℕ := s.height / 50

/-- `CollisionSpace.BUFSIZE = .2` — the IEEE-754 double `0.2` as an exact
rational. -/
def bufsize : ℚ := 3602879701896397 / 18014398509481984

/-- `CollisionSpace._get_simple_bins_idxs` (main.py:811-828): the primary
bin of a position, clamped to the grid. -/
def SpaceM.get_simple_bins_idxs (sp : SpaceM) (pos : ℚ × ℚ) : ℤ × ℤ :=
  let px : ℚ := pos.1 / (sp.width : ℚ) * (sp.cols : ℚ)
  let py : ℚ := pos.2 / (sp.height : ℚ) * (sp.rows : ℚ)
  let bin_i : ℤ := pyInt px
  let bin_j : ℤ := pyInt py
  let bin_i : ℤ :=
    if bin_i < 0 then 0
    else if bin_i ≥ (sp.cols : ℤ) then (sp.cols : ℤ) - 1
    else bin_i
  let bin_j : ℤ :=
    if bin_j < 0 then 0
    else if bin_j ≥ (sp.rows : ℤ) then (sp.rows : ℤ) - 1
    else bin_j
  (bin_i, bin_j)

/-- `CollisionSpace._get_bins_idxs` (main.py:830-880): the bins a query
position overlaps under the `BUFSIZE` margin policy, in source append
order.  Note: in the lower-row-margin branch the source (line 874)
appends `(bin_i, bin_j)` — the primary bin again — although its guard
`bin_j < self.rows - 1` and the `bin_j + 1` diagonals next to it address
the next row; the translation reproduces the source as written. -/
def SpaceM.get_bins_idxs (sp : SpaceM) (pos : ℚ × ℚ) : List (ℤ × ℤ) :=
  let px : ℚ := pos.1 / (sp.width : ℚ) * (sp.cols : ℚ)
  let py : ℚ := pos.2 / (sp.height : ℚ) * (sp.rows : ℚ)
  let bin_i0 : ℤ := pyInt px
  let bin_j0 : ℤ := pyInt py
  let i_pos : ℚ := px - (bin_i0 : ℚ)
  let j_pos : ℚ := py - (bin_j0 : ℚ)
  let skip_col : Bool := decide (bin_i0 < 0) || decide (bin_i0 ≥ (sp.cols : ℤ))
  let skip_row : Bool := decide (bin_j0 < 0) || decide (bin_j0 ≥ (sp.rows : ℤ))
  let bin_i : ℤ :=
    if bin_i0 < 0 then 0
    else if bin_i0 ≥ (sp.cols : ℤ) then (sp.cols : ℤ) - 1
    else bin_i0
  let bin_j : ℤ :=
    if bin_j0 < 0 then 0
    else if bin_j0 ≥ (sp.rows : ℤ) then (sp.rows : ℤ) - 1
    else bin_j0
  let l_bin : Bool := !skip_col && decide (i_pos < bufsize) && decide (0 < bin_i)
  let r_bin : Bool := !skip_col && !(decide (i_pos < bufsize)) &&
    decide (1 - bufsize < i_pos) && decide (bin_i < (sp.cols : ℤ) - 1)
  let colPart : List (ℤ × ℤ) :=
    if l_bin then [(bin_i - 1, bin_j)]
    else if r_bin then [(bin_i + 1, bin_j)]
    else []
  let diagUp : List (ℤ × ℤ) :=
    if l_bin then [(bin_i - 1, bin_j - 1)]
    else if r_bin then [(bin_i + 1, bin_j - 1)]
    else []
  let diagDown : List (ℤ × ℤ) :=
    if l_bin then [(bin_i - 1, bin_j + 1)]
    else if r_bin then [(bin_i + 1, bin_j + 1)]
    else []
  let rowPart : List (ℤ × ℤ) :=
    if skip_row then []
    else if decide (j_pos < bufsize) then
      if 0 < bin_j then (bin_i, bin_j - 1) :: diagUp else []
    else if decide (1 - bufsize < j_pos) then
      if bin_j < (sp.rows : ℤ) - 1 then (bin_i, bin_j) :: diagDown else []
    else []
  (bin_i, bin_j) :: colPart ++ rowPart

/-- A concrete stand-in for the abstracted polygon geometry, used to
exhibit cache staleness: it distinguishes headings, as the real transform
`Ship._calc_global_ps` does for the asymmetric baddie polygons. -/
def geomEx : ℚ × ℚ → ℚ → PyRect := fun _ t => ⟨⌊t⌋, 0, 1, 1⟩

theorem GunM.fire_length (g : GunM) (pos : ℚ × ℚ) (traj : ℚ) :
    (g.fire pos traj).length = g.power + 1 := by
  have h1 : ((g.power : ℤ) + 1 - -(g.power : ℤ) + 2 - 1) = ((2 * g.power + 2 : ℕ) : ℤ) := by
    push_cast; ring
  have h2 : Int.toNat 2 = 2 := rfl
  simp only [GunM.fire, pyXrange, List.length_map, List.length_range, h1,
    Int.toNat_natCast, h2]
  omega

/-- C8: a shield upgrade adds exactly one shield (and does not touch the
exploding flag); `Player.hit` with a positive shield count spends one
shield and leaves every other field alone (in particular the player does
not start exploding); `Player.hit` with no shields triggers the
explosion. -/
theorem c8_shield_semantics (p : PlayerS) :
    (UpgradeKind.shieldU.apply p).shields = p.shields + 1 ∧
    (UpgradeKind.shieldU.apply p).exploding = p.exploding ∧
    (0 < p.shields → p.hit = { p with shields := p.shields - 1 }) ∧
    (p.shields ≤ 0 → p.hit = { p with exploding := true }) := by
  refine ⟨rfl, rfl, fun h => ?_, fun h => ?_⟩
  · simp only [PlayerS.hit, if_neg (by omega : ¬ p.shields ≤ 0)]
  · simp only [PlayerS.hit, if_pos h]

/-- Witness for C8 at a concrete player. -/
theorem c8_shield_semantics_witness :
    (UpgradeKind.shieldU.apply ⟨2, false, 0, 4, 0, ⟨0, 0, 10, 10⟩⟩).shields = 2 + 1 ∧
    PlayerS.hit ⟨2, false, 0, 4, 0, ⟨0, 0, 10, 10⟩⟩ = ⟨1, false, 0, 4, 0, ⟨0, 0, 10, 10⟩⟩ ∧
    PlayerS.hit ⟨0, false, 0, 4, 0, ⟨0, 0, 10, 10⟩⟩ = ⟨0, true, 0, 4, 0, ⟨0, 0, 10, 10⟩⟩ := by
  refine ⟨(c8_shield_semantics ⟨2, false, 0, 4, 0, ⟨0, 0, 10, 10⟩⟩).1, ?_, ?_⟩
  · exact (c8_shield_semantics ⟨2, false, 0, 4, 0, ⟨0, 0, 10, 10⟩⟩).2.2.1 (by decide)
  · exact (c8_shield_semantics ⟨0, false, 0, 4, 0, ⟨0, 0, 10, 10⟩⟩).2.2.2 (by decide)

/-- C9: `move_forward(amt)` succeeds exactly when `amt ∈ [0, 1]` (outside
it raises, modelled as `none`), and on success displaces the ship along
its heading by `speed * amt` (components `cos`/`sin` of the heading),
leaving heading and speed unchanged. -/
theorem c9_move_forward (cosF sinF : ℚ → ℚ) (s : ShipM) (amt : ℚ) :
    ((s.move_forward cosF sinF amt).isSome ↔ 0 ≤ amt ∧ amt ≤ 1) ∧
    (∀ s2, s.move_forward cosF sinF amt = some s2 →
      s2.pos.1 - s.pos.1 = s.speed * amt * cosF s.traj ∧
      s2.pos.2 - s.pos.2 = s.speed * amt * sinF s.traj ∧
      s2.traj = s.traj ∧ s2.speed = s.speed ∧ s2.rect = none) := by
  constructor
  · rw [ShipM.move_forward]
    split
    next h => simp [h.1, h.2]
    next h => simp [h]
  · intro s2 h
    simp only [ShipM.move_forward] at h
    split at h
    · cases h
      refine ⟨by ring, by ring, rfl, rfl, rfl⟩
    · cases h

/-- Witness for C9: speed 2, heading with `cos = 3/5`, `sin = 4/5`,
fraction 1/2 succeeds and moves by (3/5, 4/5); fraction 2 fails. -/
theorem c9_move_forward_witness :
    (ShipM.move_forward (fun _ => 3/5) (fun _ => 4/5) ⟨(0, 0), 0, 2, none⟩ (1/2)).isSome ∧
    (ShipM.move_forward (fun _ => 3/5) (fun _ => 4/5) ⟨(0, 0), 0, 2, none⟩ 2 = none) := by
  constructor
  · exact (c9_move_forward (fun _ => 3/5) (fun _ => 4/5) ⟨(0, 0), 0, 2, none⟩ (1/2)).1.mpr
      (by norm_num)
  · have h := (c9_move_forward (fun _ => 3/5) (fun _ => 4/5) ⟨(0, 0), 0, 2, none⟩ 2).1
    cases ho : ShipM.move_forward (fun _ => 3/5) (fun _ => 4/5) ⟨(0, 0), 0, 2, none⟩ 2 with
    | none => rfl
    | some s2 =>
      have : (0 : ℚ) ≤ 2 ∧ (2 : ℚ) ≤ 1 := h.mp (by rw [ho]; rfl)
      norm_num at this

/-- C10: an attempt to fire strictly before the cooldown has elapsed
returns no bullets and leaves the whole firing state (timestamp and gun)
unchanged; once the cooldown has elapsed, bullets are produced and only
then does the stored timestamp advance to the current tick; the gun is
never modified by firing. -/
theorem c10_fire_cooldown (p : PlayerFireS) (ticks : ℤ) (traj : ℚ) :
    (ticks < p.last_fire_time + p.fire_delay → p.fire ticks traj = ([], p)) ∧
    (p.last_fire_time + p.fire_delay ≤ ticks →
      (p.fire ticks traj).1 ≠ [] ∧
      (p.fire ticks traj).2 = { p with last_fire_time := ticks }) ∧
    (p.fire ticks traj).2.gun = p.gun := by
  refine ⟨fun h => ?_, fun h => ?_, ?_⟩
  · simp only [PlayerFireS.fire, PlayerFireS.okay_to_fire,
      if_neg (by omega : ¬ p.last_fire_time + p.fire_delay ≤ ticks)]
    simp
  · constructor
    · simp only [PlayerFireS.fire, PlayerFireS.okay_to_fire, if_pos h, if_true]
      have hl := GunM.fire_length p.gun p.pos traj
      intro hc
      split at hc
      · next hemp =>
          rw [List.isEmpty_iff_length_eq_zero] at hemp
          omega
      · next hemp =>
          have : (GunM.fire p.gun p.pos traj).length = 0 := by rw [hc]; rfl
          omega
    · simp only [PlayerFireS.fire, PlayerFireS.okay_to_fire, if_pos h, if_true]
  · by_cases h : p.last_fire_time + p.fire_delay ≤ ticks <;>
      simp [PlayerFireS.fire, PlayerFireS.okay_to_fire, h]

/-- Witness for C10: delay 100, last shot at 1000; an attempt at 1050
changes nothing, an attempt at 1100 fires and advances the timestamp. -/
theorem c10_fire_cooldown_witness :
    PlayerFireS.fire ⟨1000, 100, ⟨0, Side.good⟩, (0, 0)⟩ 1050 0 =
      ([], ⟨1000, 100, ⟨0, Side.good⟩, (0, 0)⟩) ∧
    (PlayerFireS.fire ⟨1000, 100, ⟨0, Side.good⟩, (0, 0)⟩ 1100 0).1 ≠ [] ∧
    (PlayerFireS.fire ⟨1000, 100, ⟨0, Side.good⟩, (0, 0)⟩ 1100 0).2 =
      ⟨1100, 100, ⟨0, Side.good⟩, (0, 0)⟩ := by
  refine ⟨(c10_fire_cooldown ⟨1000, 100, ⟨0, Side.good⟩, (0, 0)⟩ 1050 0).1 (by decide), ?_, ?_⟩
  · exact ((c10_fire_cooldown ⟨1000, 100, ⟨0, Side.good⟩, (0, 0)⟩ 1100 0).2.1 (by decide)).1
  · exact ((c10_fire_cooldown ⟨1000, 100, ⟨0, Side.good⟩, (0, 0)⟩ 1100 0).2.1 (by decide)).2

/-- C4 counterexample: a gun of power 1 fires 2 bullets, not 2*1+1 = 3
(`xrange(-1, 2, 2)` has two elements). -/
theorem c4_counterexample :
    (GunM.fire ⟨1, Side.good⟩ (0, 0) 0).length = 2 ∧
    (GunM.fire ⟨1, Side.good⟩ (0, 0) 0).length ≠ 2 * 1 + 1 := by decide

/-- C4 amended: a gun of power N fires N+1 bullets, at heading offsets
`(2k − N)/50` for k = 0..N — an evenly spaced fan of step 2/50 radian,
symmetric around the aim direction — each bullet starting at the gun
position and carrying the gun's side tag. -/
theorem c4_fan_fire (g : GunM) (pos : ℚ × ℚ) (traj : ℚ) :
    (g.fire pos traj).length = g.power + 1 ∧
    ∀ (k : ℕ) (h : k < (g.fire pos traj).length),
      ((g.fire pos traj).get ⟨k, h⟩).traj = traj + (2 * (k : ℚ) - (g.power : ℚ)) / 50 ∧
      ((g.fire pos traj).get ⟨k, h⟩).side = g.side ∧
      ((g.fire pos traj).get ⟨k, h⟩).pos = pos := by
  refine ⟨GunM.fire_length g pos traj, fun k h => ?_⟩
  simp only [GunM.fire, pyXrange, List.get_eq_getElem, List.getElem_map, List.getElem_range]
  refine ⟨?_, trivial, trivial⟩
  push_cast
  ring

/-- Witness for C4's amended theorem: power 2 gives three bullets, the
middle one (k = 1) flying straight along the aim direction. -/
theorem c4_fan_fire_witness :
    (GunM.fire ⟨2, Side.good⟩ (0, 0) 0).length = 2 + 1 ∧
    ((GunM.fire ⟨2, Side.good⟩ (0, 0) 0).get ⟨1, by decide⟩).traj =
      0 + (2 * (1 : ℚ) - (2 : ℚ)) / 50 := by
  refine ⟨(c4_fan_fire ⟨2, Side.good⟩ (0, 0) 0).1, ?_⟩
  exact ((c4_fan_fire ⟨2, Side.good⟩ (0, 0) 0).2 1 (by decide)).1

/-- C1 (code-bug evidence): at screen size 800x600 (16x12 bins), a
position at (25, 95) has fractional bin coordinates (0.5, 1.9): its row
offset 0.9 exceeds 1 − BUFSIZE and the next row (index 2 < rows − 1) is
in range, yet `_get_bins_idxs` returns the primary bin (0, 1) twice and
never the next-row bin (0, 2) (main.py:874 appends `(bin_i, bin_j)`
instead of `(bin_i, bin_j + 1)`).  So an entity just above the row
boundary — whose insertion bin via `_get_simple_bins_idxs` is (0, 1) — is
not discoverable from the row below, while the mirrored position (25, 105)
below the boundary does reach across (its query includes (0, 1)). -/
theorem c1_margin_row_bug :
    SpaceM.get_bins_idxs ⟨800, 600⟩ (25, 95) = [(0, 1), (0, 1)] ∧
    (0, 2) ∉ SpaceM.get_bins_idxs ⟨800, 600⟩ (25, 95) ∧
    SpaceM.get_simple_bins_idxs ⟨800, 600⟩ (25, 95) = (0, 1) ∧
    (0, 1) ∈ SpaceM.get_bins_idxs ⟨800, 600⟩ (25, 105) ∧
    1 - bufsize < (19 : ℚ) / 10 - 1 ∧
    (1 : ℤ) < ((⟨800, 600⟩ : SpaceM).rows : ℤ) - 1 := by
  have e1 : SpaceM.get_bins_idxs ⟨800, 600⟩ (25, 95) = [(0, 1), (0, 1)] := by
    simp only [SpaceM.get_bins_idxs, SpaceM.cols, SpaceM.rows]
    norm_num [pyInt, bufsize]
  have e2 : SpaceM.get_bins_idxs ⟨800, 600⟩ (25, 105) = [(0, 2), (0, 1)] := by
    simp only [SpaceM.get_bins_idxs, SpaceM.cols, SpaceM.rows]
    norm_num [pyInt, bufsize]
  have e3 : SpaceM.get_simple_bins_idxs ⟨800, 600⟩ (25, 95) = (0, 1) := by
    simp only [SpaceM.get_simple_bins_idxs, SpaceM.cols, SpaceM.rows]
    norm_num [pyInt, bufsize]
  refine ⟨e1, ?_, e3, ?_, ?_, ?_⟩
  · rw [e1]; decide
  · rw [e2]; decide
  · norm_num [bufsize]
  · norm_num [SpaceM.rows]

/-- C5: `Level.tick` consumes exactly the maximal prefix of the pending
entries whose delay has elapsed since start — enqueuing `count` copies of
each entry's baddie type at its spawn point, possibly several entries in
one call — and the spec's scenario: for the progression
`[(1000, 0, TypeA, 5)]`, after `start()` at t = 0 a `tick()` at t = 500
enqueues nothing, and a `tick()` at t = 1000 enqueues exactly 5 orders at
spawn point 0 and makes `done()` true (it was false before). -/
theorem c5_level_tick_schedule :
    (∀ (elapsed : ℚ) (entries : List LevelEntry) (sp : List (List BaddieType)),
      levelTickLoop elapsed entries sp =
        ((entries.takeWhile fun e => decide (e.delay ≤ elapsed)).length,
         (entries.takeWhile fun e => decide (e.delay ≤ elapsed)).foldl queueSpawnN sp)) ∧
    LevelM.tick (LevelM.start ⟨[⟨1000, 0, BaddieType.wiggler, 5⟩], -1, 0, 0⟩ 0) [[]] 500 =
      (LevelM.start ⟨[⟨1000, 0, BaddieType.wiggler, 5⟩], -1, 0, 0⟩ 0, [[]]) ∧
    LevelM.tick (LevelM.start ⟨[⟨1000, 0, BaddieType.wiggler, 5⟩], -1, 0, 0⟩ 0) [[]] 1000 =
      ({ LevelM.start ⟨[⟨1000, 0, BaddieType.wiggler, 5⟩], -1, 0, 0⟩ 0 with prog_i := 1 },
        [List.replicate 5 BaddieType.wiggler]) ∧
    LevelM.done { LevelM.start ⟨[⟨1000, 0, BaddieType.wiggler, 5⟩], -1, 0, 0⟩ 0 with
      prog_i := 1 } = true ∧
    LevelM.done (LevelM.start ⟨[⟨1000, 0, BaddieType.wiggler, 5⟩], -1, 0, 0⟩ 0) = false := by
  refine ⟨fun elapsed entries => ?_, by decide, by decide, by decide, by decide⟩
  induction entries with
  | nil => intro sp; rfl
  | cons e rest ih =>
    intro sp
    by_cases h : e.delay ≤ elapsed
    · simp [levelTickLoop, List.takeWhile, h, ih]
    · simp [levelTickLoop, List.takeWhile, h]

theorem twoPi_pos : (0 : ℚ) < twoPi := by norm_num [twoPi, piQ]

theorem normDown_le (t : ℚ) : normDown t ≤ twoPi := by
  induction t using normDown.induct with
  | case1 t h ih => rw [normDown, if_pos h]; exact ih
  | case2 t h => rw [normDown, if_neg h]; linarith [not_lt.mp h]

theorem normUp_nonneg (t : ℚ) : 0 ≤ normUp t := by
  induction t using normUp.induct with
  | case1 t h ih => rw [normUp, if_pos h]; exact ih
  | case2 t h => rw [normUp, if_neg h]; linarith [not_lt.mp h]

theorem normUp_le (t : ℚ) : t ≤ twoPi → normUp t ≤ twoPi := by
  induction t using normUp.induct with
  | case1 t h ih =>
    intro ht
    rw [normUp, if_pos h]
    exact ih (by linarith)
  | case2 t h =>
    intro ht
    rw [normUp, if_neg h]
    exact ht

theorem wrapTraj_mem (t : ℚ) : 0 ≤ wrapTraj t ∧ wrapTraj t ≤ twoPi :=
  ⟨normUp_nonneg _, normUp_le _ (normDown_le t)⟩

/-- C6 counterexample: a vertical wall bounce of a ship heading `π/2`
(inside `[0, 2π)`) leaves the heading at `−π/2`, a negative value outside
`[0, 2π)` — the bounce assignments perform no re-wrapping. -/
theorem c6_counterexample :
    0 ≤ piQ / 2 ∧ piQ / 2 < twoPi ∧
    (ShipM.bounce_v ⟨(100, 100), piQ / 2, 1, none⟩).traj < 0 := by
  refine ⟨by norm_num [piQ], by norm_num [piQ, twoPi], ?_⟩
  show -(piQ / 2) < 0
  norm_num [piQ]

/-- C6 amended: `rotate(delta)` (and the identical wrap in `Wiggler.tick`)
leaves the heading in the closed interval `[0, 2π]` for every starting
heading and delta — the right endpoint is attainable (e.g. rotating a
0-heading ship by exactly `2π`), so the half-open `[0, 2π)` of the claim
is not preserved — while the wall-bounce heading flips are bare
assignments `π − θ` and `−θ` with no re-wrapping, producing negative
headings whenever `θ > π` (horizontal) or `θ > 0` (vertical).  (The
Homer's `atan2` bearing, with range `(−π, π]`, is likewise assigned
without re-wrapping; being transcendental it is outside this model.) -/
theorem c6_heading_range :
    (∀ (s : ShipM) (dt : ℚ), 0 ≤ (s.rotate dt).traj ∧ (s.rotate dt).traj ≤ twoPi) ∧
    (ShipM.rotate ⟨(0, 0), 0, 2, none⟩ twoPi).traj = twoPi ∧
    (∀ t d : ℚ, 0 ≤ wigglerTraj t d ∧ wigglerTraj t d ≤ twoPi) ∧
    (∀ s : ShipM, s.bounce_h.traj = piQ - s.traj ∧ s.bounce_v.traj = -s.traj ∧
      (0 < s.traj → s.bounce_v.traj < 0) ∧
      (piQ < s.traj → s.bounce_h.traj < 0)) := by
  refine ⟨fun s dt => wrapTraj_mem _, ?_, fun t d => wrapTraj_mem _, fun s => ⟨rfl, rfl, ?_, ?_⟩⟩
  · show wrapTraj (0 + twoPi) = twoPi
    rw [zero_add, wrapTraj, normDown, if_neg (lt_irrefl twoPi),
      normUp, if_neg (not_lt.mpr (le_of_lt twoPi_pos))]
  · intro h
    show -s.traj < 0
    linarith
  · intro h
    show piQ - s.traj < 0
    linarith

/-- Witness for C6's amended theorem at concrete inputs: a rotation by 10
stays in `[0, 2π]`, and a vertical bounce from heading `π` goes negative. -/
theorem c6_heading_range_witness :
    0 ≤ (ShipM.rotate ⟨(0, 0), 0, 2, none⟩ 10).traj ∧
    (ShipM.bounce_v ⟨(0, 0), piQ, 1, none⟩).traj < 0 := by
  refine ⟨(c6_heading_range.1 ⟨(0, 0), 0, 2, none⟩ 10).1, ?_⟩
  exact (c6_heading_range.2.2.2 ⟨(0, 0), piQ, 1, none⟩).2.2.1 (by norm_num [piQ])

/-- C7 counterexample: build the rectangle of a ship at heading 1, then
apply the vertical-bounce heading assignment (which, unlike
`move`/`rotate`/`move_forward`, does not clear the cache, main.py:730):
the next `_build_rect` query returns the rectangle computed from the
pre-mutation heading 1, not from the current heading −1 (witnessed with a
geometry that distinguishes the two headings, as the real polygon
transform does). -/
theorem c7_counterexample :
    (ShipM.build_rect geomEx
      (ShipM.bounce_v (ShipM.build_rect geomEx ⟨(0, 0), 1, 2, none⟩).2)).1 = geomEx (0, 0) 1 ∧
    geomEx (0, 0)
      (ShipM.bounce_v (ShipM.build_rect geomEx ⟨(0, 0), 1, 2, none⟩).2).traj ≠
      geomEx (0, 0) 1 := by
  constructor
  · rfl
  · intro heq
    simp only [geomEx, ShipM.bounce_v, ShipM.build_rect, PyRect.mk.injEq] at heq
    norm_num at heq

/-- C7 amended: the mutator methods `move`, `rotate` and `move_forward`
clear the cached rectangle before mutating, so a `_build_rect` query
right after any of them returns the rectangle of the post-mutation
position/heading; the cache is filled by the query and a repeated query
returns the same rectangle without recomputation (at most one rebuild
between mutations).  The bare heading assignments of the wall bounce (and
of `Homer.tick`/`Input.tick`) do not clear the cache — see the
counterexample — so the claim's "any position or heading change" does not
hold for them. -/
theorem c7_cache_invalidation (geom : ℚ × ℚ → ℚ → PyRect) (s : ShipM)
    (dx dy dt amt : ℚ) (cosF sinF : ℚ → ℚ) :
    ((s.move dx dy).build_rect geom).1 = geom (s.move dx dy).pos (s.move dx dy).traj ∧
    ((s.rotate dt).build_rect geom).1 = geom (s.rotate dt).pos (s.rotate dt).traj ∧
    (∀ s2, s.move_forward cosF sinF amt = some s2 →
      (s2.build_rect geom).1 = geom s2.pos s2.traj) ∧
    (s.build_rect geom).2.rect = some (s.build_rect geom).1 ∧
    (s.build_rect geom).2.build_rect geom = ((s.build_rect geom).1, (s.build_rect geom).2) := by
  refine ⟨rfl, rfl, fun s2 h => ?_, ?_, ?_⟩
  · rw [ShipM.move_forward] at h
    split at h
    · cases h; rfl
    · cases h
  · cases hr : s.rect <;> simp [ShipM.build_rect, hr]
  · cases hr : s.rect <;> simp [ShipM.build_rect, hr]

/-- Witness for C7's amended theorem: a concrete `move`, a concrete
successful `move_forward`, and the idempotence of a query on a cached
state. -/
theorem c7_cache_invalidation_witness :
    ((ShipM.move ⟨(0, 0), 1, 2, none⟩ 3 4).build_rect geomEx).1 =
      geomEx (ShipM.move ⟨(0, 0), 1, 2, none⟩ 3 4).pos
        (ShipM.move ⟨(0, 0), 1, 2, none⟩ 3 4).traj ∧
    ((⟨(0 + id 1 * (2 * 1), 0 + id 1 * (2 * 1)), 1, 2, none⟩ : ShipM).build_rect geomEx).1 =
      geomEx (⟨(0 + id 1 * (2 * 1), 0 + id 1 * (2 * 1)), 1, 2, none⟩ : ShipM).pos
        (⟨(0 + id 1 * (2 * 1), 0 + id 1 * (2 * 1)), 1, 2, none⟩ : ShipM).traj ∧
    ((⟨(0, 0), 1, 2, some ⟨5, 5, 1, 1⟩⟩ : ShipM).build_rect geomEx).2.build_rect geomEx =
      (((⟨(0, 0), 1, 2, some ⟨5, 5, 1, 1⟩⟩ : ShipM).build_rect geomEx).1,
       ((⟨(0, 0), 1, 2, some ⟨5, 5, 1, 1⟩⟩ : ShipM).build_rect geomEx).2) := by
  refine ⟨(c7_cache_invalidation geomEx ⟨(0, 0), 1, 2, none⟩ 3 4 0 0 id id).1, ?_, ?_⟩
  · exact (c7_cache_invalidation geomEx ⟨(0, 0), 1, 2, none⟩ 0 0 0 1 id id).2.2.1
      ⟨(0 + id 1 * (2 * 1), 0 + id 1 * (2 * 1)), 1, 2, none⟩ rfl
  · exact (c7_cache_invalidation geomEx ⟨(0, 0), 1, 2, some ⟨5, 5, 1, 1⟩⟩ 0 0 0 0 id id).2.2.2.2

/-- C2 counterexample: a player with one shield scanning a single bin that
holds one colliding baddie does NOT enter the exploding state — the hit is
absorbed by the shield (`Player.hit`), contradicting the claim that a
colliding baddie always makes the player enter the exploding state. -/
theorem c2_counterexample :
    (playerScanBins
      (fun ij => if ij = ((0 : ℤ), (0 : ℤ))
        then [⟨HKind.baddie, ⟨5, 5, 10, 10⟩, (0, 0), 200, []⟩] else [])
      ⟨1, false, 0, 4, 0, ⟨0, 0, 10, 10⟩⟩ [(0, 0)]).1.exploding = false ∧
    collidesPlayer ⟨HKind.baddie, ⟨5, 5, 10, 10⟩, (0, 0), 200, []⟩
      ⟨1, false, 0, 4, 0, ⟨0, 0, 10, 10⟩⟩ = true := by decide

/-- C2 amended: during the per-tick player scan, a colliding baddie or
hostile bullet makes the player take a hit (`Player.hit`: exploding is
entered iff no shields are left, otherwise one shield is spent), the
collider is removed and the scan of that bin stops; a colliding upgrade
is applied immediately, removed, and the bin scan continues — a bin of n
colliding shield upgrades yields n pickups in the one tick; scanning of
the remaining bins stops exactly when the player is left exploding. -/
theorem c2_player_scan :
    (∀ (p : PlayerS) (e : HEntity) (rest : List HEntity),
      collidesPlayer e p = true → e.kind = HKind.baddie ∨ e.kind = HKind.hbullet →
      playerScanBinRev p (e :: rest) = (p.hit, rest)) ∧
    (∀ (p : PlayerS) (u : UpgradeKind) (e : HEntity) (rest : List HEntity),
      collidesPlayer e p = true → e.kind = HKind.upgrade u →
      playerScanBinRev p (e :: rest) = playerScanBinRev (u.apply p) rest) ∧
    (∀ p : PlayerS, p.hit.exploding = (p.exploding || decide (p.shields ≤ 0)) ∧
      (0 < p.shields → p.hit = { p with shields := p.shields - 1 })) ∧
    (∀ (p : PlayerS) (n : ℕ) (r : PyRect), r.colliderect p.rect = true →
      (playerScanBinRev p
        (List.replicate n ⟨HKind.upgrade UpgradeKind.shieldU, r, (0, 0), 0, []⟩)).1.shields
          = p.shields + n ∧
      (playerScanBinRev p
        (List.replicate n ⟨HKind.upgrade UpgradeKind.shieldU, r, (0, 0), 0, []⟩)).2 = []) ∧
    (∀ (grid : ℤ × ℤ → List HEntity) (p : PlayerS) (ij : ℤ × ℤ) (rest : List (ℤ × ℤ)),
      ((playerScanBin p (grid ij)).1.exploding = true →
        playerScanBins grid p (ij :: rest) =
          ((playerScanBin p (grid ij)).1,
           Function.update grid ij (playerScanBin p (grid ij)).2)) ∧
      ((playerScanBin p (grid ij)).1.exploding = false →
        playerScanBins grid p (ij :: rest) =
          playerScanBins (Function.update grid ij (playerScanBin p (grid ij)).2)
            (playerScanBin p (grid ij)).1 rest)) := by
  refine ⟨?_, ?_, ?_, ?_, ?_⟩
  · rintro p ⟨k, r, q, sc, dr⟩ rest hcol (rfl | rfl) <;>
      simp [playerScanBinRev, hcol]
  · rintro p u ⟨k, r, q, sc, dr⟩ rest hcol rfl
    simp [playerScanBinRev, hcol]
  · intro p
    constructor
    · by_cases h : p.shields ≤ 0 <;> simp [PlayerS.hit, h]
    · intro h
      simp only [PlayerS.hit, if_neg (by omega : ¬ p.shields ≤ 0)]
  · intro p n r
    induction n generalizing p with
    | zero => intro h; simp [playerScanBinRev]
    | succ m ih =>
      intro h
      have hcol : collidesPlayer
          ⟨HKind.upgrade UpgradeKind.shieldU, r, (0, 0), 0, []⟩ p = true := by
        simpa [collidesPlayer] using h
      have ih2 := ih (UpgradeKind.shieldU.apply p) h
      simp only [List.replicate_succ, playerScanBinRev, hcol, if_pos]
      refine ⟨?_, ih2.2⟩
      rw [ih2.1]
      show p.shields + 1 + (m : ℤ) = p.shields + ((m : ℤ) + 1)
      ring
  · intro grid p ij rest
    constructor
    · intro h
      simp only [playerScanBins, h, if_pos]
    · intro h
      simp only [playerScanBins, h]
      simp

/-- Witness for C2's amended theorem: a shielded player absorbs a
colliding baddie (one-element bin, hit applied, baddie removed), and a
bin of two colliding shield upgrades gives two shields in one tick. -/
theorem c2_player_scan_witness :
    playerScanBinRev ⟨1, false, 0, 4, 0, ⟨0, 0, 10, 10⟩⟩
      [⟨HKind.baddie, ⟨5, 5, 10, 10⟩, (0, 0), 200, []⟩] =
      (PlayerS.hit ⟨1, false, 0, 4, 0, ⟨0, 0, 10, 10⟩⟩, []) ∧
    (playerScanBinRev ⟨0, false, 0, 4, 0, ⟨0, 0, 10, 10⟩⟩
      (List.replicate 2
        ⟨HKind.upgrade UpgradeKind.shieldU, ⟨5, 5, 10, 10⟩, (0, 0), 0, []⟩)).1.shields
        = (0 : ℤ) + ((2 : ℕ) : ℤ) := by
  refine ⟨c2_player_scan.1 _ _ _ (by decide) (Or.inl rfl), ?_⟩
  exact (c2_player_scan.2.2.2.1 ⟨0, false, 0, 4, 0, ⟨0, 0, 10, 10⟩⟩ 2 ⟨5, 5, 10, 10⟩
    (by decide)).1

theorem bulletScanBinRev_spec (bpos : ℤ × ℤ) (bin : List HEntity) :
    ((bulletScanBinRev bpos bin).1 = none →
      (bulletScanBinRev bpos bin).2 = bin ∧ ∀ x ∈ bin, bulletHits x bpos = false) ∧
    (∀ e, (bulletScanBinRev bpos bin).1 = some e →
      bulletHits e bpos = true ∧
      ∃ l r, bin = l ++ e :: r ∧ (bulletScanBinRev bpos bin).2 = l ++ r ∧
        ∀ x ∈ l, bulletHits x bpos = false) := by
  induction bin with
  | nil =>
    exact ⟨fun _ => ⟨rfl, by simp⟩, fun e h => by simp [bulletScanBinRev] at h⟩
  | cons a rest ih =>
    by_cases ha : bulletHits a bpos
    · constructor
      · intro h
        rw [bulletScanBinRev, if_pos ha] at h
        cases h
      · intro e h
        rw [bulletScanBinRev, if_pos ha] at h ⊢
        cases h
        exact ⟨ha, [], rest, rfl, rfl, by simp⟩
    · have hstep1 : (bulletScanBinRev bpos (a :: rest)).1 = (bulletScanBinRev bpos rest).1 := by
        rw [bulletScanBinRev, if_neg ha]
      have hstep2 : (bulletScanBinRev bpos (a :: rest)).2 = a :: (bulletScanBinRev bpos rest).2 := by
        rw [bulletScanBinRev, if_neg ha]
      constructor
      · intro h
        rw [hstep1] at h
        obtain ⟨h2, hall⟩ := ih.1 h
        refine ⟨by rw [hstep2, h2], ?_⟩
        intro x hx
        rcases List.mem_cons.mp hx with rfl | hx
        · simpa using ha
        · exact hall x hx
      · intro e h
        rw [hstep1] at h
        obtain ⟨hhit, l, r, hbin, h2, hall⟩ := ih.2 e h
        refine ⟨hhit, a :: l, r, by simp [hbin], by simp [hstep2, h2], ?_⟩
        intro x hx
        rcases List.mem_cons.mp hx with rfl | hx
        · simpa using ha
        · exact hall x hx

theorem bulletScanBin_spec (bpos : ℤ × ℤ) (bin : List HEntity) :
    ((bulletScanBin bpos bin).1 = none →
      (bulletScanBin bpos bin).2 = bin ∧ ∀ x ∈ bin, bulletHits x bpos = false) ∧
    (∀ e, (bulletScanBin bpos bin).1 = some e →
      bulletHits e bpos = true ∧
      ∃ l r, bin = l ++ e :: r ∧ (bulletScanBin bpos bin).2 = l ++ r ∧
        ∀ x ∈ r, bulletHits x bpos = false) := by
  have h1 : (bulletScanBin bpos bin).1 = (bulletScanBinRev bpos bin.reverse).1 := rfl
  have h2 : (bulletScanBin bpos bin).2 = (bulletScanBinRev bpos bin.reverse).2.reverse := rfl
  constructor
  · intro h
    rw [h1] at h
    obtain ⟨ha, hall⟩ := (bulletScanBinRev_spec bpos bin.reverse).1 h
    refine ⟨by rw [h2, ha, List.reverse_reverse], ?_⟩
    intro x hx
    exact hall x (by simpa using hx)
  · intro e h
    rw [h1] at h
    obtain ⟨hhit, l, r, hbin, hsurv, hall⟩ := (bulletScanBinRev_spec bpos bin.reverse).2 e h
    refine ⟨hhit, r.reverse, l.reverse, ?_, ?_, ?_⟩
    · have := congrArg List.reverse hbin
      simpa using this
    · rw [h2, hsurv]
      simp
    · intro x hx
      exact hall x (by simpa using hx)

theorem bulletHits_kind (e : HEntity) (bpos : ℤ × ℤ) (h : bulletHits e bpos = true) :
    e.kind = HKind.baddie := by
  cases e with
  | mk k r q sc dr => cases k <;> simp_all [bulletHits]

theorem bulletScanBins_spec (bpos : ℤ × ℤ) (idxs : List (ℤ × ℤ)) :
    ∀ grid : ℤ × ℤ → List HEntity,
    ((bulletScanBins bpos grid idxs).1 = none →
      (bulletScanBins bpos grid idxs).2 = grid ∧
      ∀ ij ∈ idxs, ∀ x ∈ grid ij, bulletHits x bpos = false) ∧
    (∀ e, (bulletScanBins bpos grid idxs).1 = some e →
      bulletHits e bpos = true ∧
      ∃ ij l r, ij ∈ idxs ∧ grid ij = l ++ e :: r ∧
        (∀ x ∈ r, bulletHits x bpos = false) ∧
        (bulletScanBins bpos grid idxs).2 = Function.update grid ij (l ++ r)) := by
  induction idxs with
  | nil =>
    intro grid
    constructor
    · intro _; exact ⟨rfl, by simp⟩
    · intro e h; simp [bulletScanBins] at h
  | cons ij rest ih =>
    intro grid
    cases hr : (bulletScanBin bpos (grid ij)).1 with
    | some e0 =>
      have hstep : bulletScanBins bpos grid (ij :: rest) =
          (some e0, Function.update grid ij (bulletScanBin bpos (grid ij)).2) := by
        simp only [bulletScanBins]
        rw [hr]
      constructor
      · intro h
        rw [hstep] at h
        cases h
      · intro e h
        rw [hstep] at h
        cases h
        obtain ⟨hhit, l, r, hbin, hsurv, hall⟩ := (bulletScanBin_spec bpos (grid ij)).2 e0 hr
        refine ⟨hhit, ij, l, r, List.mem_cons_self ij rest, hbin, hall, ?_⟩
        rw [hstep, hsurv]
    | none =>
      obtain ⟨hsurv, hnone⟩ := (bulletScanBin_spec bpos (grid ij)).1 hr
      have hgrid2 : Function.update grid ij (bulletScanBin bpos (grid ij)).2 = grid := by
        rw [hsurv]
        exact Function.update_eq_self ij grid
      have hstep : bulletScanBins bpos grid (ij :: rest) = bulletScanBins bpos grid rest := by
        simp only [bulletScanBins]
        rw [hr, hgrid2]
      constructor
      · intro h
        rw [hstep] at h
        obtain ⟨hg, hall⟩ := (ih grid).1 h
        refine ⟨by rw [hstep, hg], ?_⟩
        intro ij2 hij2 x hx
        rcases List.mem_cons.mp hij2 with rfl | hij2
        · exact hnone x hx
        · exact hall ij2 hij2 x hx
      · intro e h
        rw [hstep] at h
        obtain ⟨hhit, ij2, l, r, hmem, hbin, hall, hgr⟩ := (ih grid).2 e h
        exact ⟨hhit, ij2, l, r, List.mem_cons_of_mem ij hmem, hbin, hall, by rw [hstep, hgr]⟩

/-- C3: resolving one player bullet against its queried bins removes at
most one target: either no qualifying target exists and the grid, hostile
pool, score and bullet are all untouched, or the scan stops at its first
qualifying target e — necessarily a baddie; upgrades never qualify (third
conjunct) and hostile bullets never collide with a player bullet — and
then the target's score is added to the player's score, the target's
pre-drawn drop roll is appended to the hostile pool, the bullet is
removed, and exactly the one target disappears from exactly one queried
bin, every other bin (and the rest of the hit bin) being left exactly as
it was — no further bins are scanned. -/
theorem c3_bullet_resolution (bpos : ℤ × ℤ) (grid : ℤ × ℤ → List HEntity)
    (idxs : List (ℤ × ℤ)) (pool : List HEntity) (score : ℤ) :
    ((bulletResolve bpos grid idxs pool score).target = none →
      (bulletResolve bpos grid idxs pool score).grid = grid ∧
      (bulletResolve bpos grid idxs pool score).pool = pool ∧
      (bulletResolve bpos grid idxs pool score).score = score ∧
      (bulletResolve bpos grid idxs pool score).bulletRemoved = false) ∧
    (∀ e, (bulletResolve bpos grid idxs pool score).target = some e →
      e.kind = HKind.baddie ∧ bulletHits e bpos = true ∧
      (bulletResolve bpos grid idxs pool score).score = score + e.score ∧
      (bulletResolve bpos grid idxs pool score).pool = pool ++ e.drops.map (mkDrop e.pos) ∧
      (bulletResolve bpos grid idxs pool score).bulletRemoved = true ∧
      ∃ ij l r, ij ∈ idxs ∧ grid ij = l ++ e :: r ∧
        (∀ x ∈ r, bulletHits x bpos = false) ∧
        (bulletResolve bpos grid idxs pool score).grid = Function.update grid ij (l ++ r)) ∧
    (∀ (u : UpgradeKind) (r : PyRect) (q : ℤ × ℤ) (sc : ℤ) (dr : List UpgradeKind),
      bulletHits ⟨HKind.upgrade u, r, q, sc, dr⟩ bpos = false) := by
  cases hs : (bulletScanBins bpos grid idxs).1 with
  | none =>
    have hres : bulletResolve bpos grid idxs pool score =
        ⟨none, (bulletScanBins bpos grid idxs).2, pool, score, false⟩ := by
      simp only [bulletResolve]
      rw [hs]
    obtain ⟨hg, _⟩ := (bulletScanBins_spec bpos idxs grid).1 hs
    refine ⟨fun _ => ⟨by rw [hres]; exact hg, by rw [hres], by rw [hres], by rw [hres]⟩,
      fun e h => ?_, fun u r q sc dr => rfl⟩
    rw [hres] at h
    cases h
  | some e0 =>
    obtain ⟨hhit, ij, l, r, hmem, hbin, hall, hgr⟩ :=
      (bulletScanBins_spec bpos idxs grid).2 e0 hs
    have hk := bulletHits_kind e0 bpos hhit
    obtain ⟨k, er, eq, esc, edr⟩ := e0
    simp only [HEntity.kind] at hk
    subst hk
    have hres : bulletResolve bpos grid idxs pool score =
        ⟨some ⟨HKind.baddie, er, eq, esc, edr⟩, (bulletScanBins bpos grid idxs).2,
         pool ++ edr.map (mkDrop eq), score + esc, true⟩ := by
      simp only [bulletResolve, hs]
    constructor
    · intro h
      rw [hres] at h
      cases h
    constructor
    · intro e h
      rw [hres] at h
      cases h
      exact ⟨rfl, hhit, by rw [hres], by rw [hres], by rw [hres], ij, l, r, hmem, hbin, hall,
        by rw [hres]; exact hgr⟩
    · intro u r2 q sc dr
      rfl

/-- Witness for C3 at concrete inputs: a bullet at (5, 5) over a single
bin holding one baddie whose rectangle contains the bullet (drop roll:
one shield upgrade) kills it — score +200, the drop enters the pool, the
bullet is consumed — while over an empty bin nothing changes. -/
theorem c3_bullet_resolution_witness :
    (bulletResolve (5, 5)
      (fun ij => if ij = ((0 : ℤ), (0 : ℤ))
        then [⟨HKind.baddie, ⟨0, 0, 10, 10⟩, (3, 3), 200, [UpgradeKind.shieldU]⟩] else [])
      [(0, 0)] [] 0).score = 0 + (200 : ℤ) ∧
    (bulletResolve (5, 5)
      (fun ij => if ij = ((0 : ℤ), (0 : ℤ))
        then [⟨HKind.baddie, ⟨0, 0, 10, 10⟩, (3, 3), 200, [UpgradeKind.shieldU]⟩] else [])
      [(0, 0)] [] 0).pool = [] ++ [UpgradeKind.shieldU].map (mkDrop (3, 3)) ∧
    (bulletResolve (5, 5)
      (fun ij => if ij = ((0 : ℤ), (0 : ℤ))
        then [⟨HKind.baddie, ⟨0, 0, 10, 10⟩, (3, 3), 200, [UpgradeKind.shieldU]⟩] else [])
      [(0, 0)] [] 0).bulletRemoved = true ∧
    (bulletResolve (5, 5) (fun _ => ([] : List HEntity)) [(0, 0)] [] 0).score = 0 := by
  have h := (c3_bullet_resolution (5, 5)
    (fun ij => if ij = ((0 : ℤ), (0 : ℤ))
      then [⟨HKind.baddie, ⟨0, 0, 10, 10⟩, (3, 3), 200, [UpgradeKind.shieldU]⟩] else [])
    [(0, 0)] [] 0).2.1
    ⟨HKind.baddie, ⟨0, 0, 10, 10⟩, (3, 3), 200, [UpgradeKind.shieldU]⟩ (by decide)
  have h2 := (c3_bullet_resolution (5, 5) (fun _ => ([] : List HEntity))
    [(0, 0)] [] 0).1 (by decide)
  exact ⟨h.2.2.1, h.2.2.2.1, h.2.2.2.2.1, h2.2.2.1⟩
